import Mathlib

/-!
Verification development for the GNUnet trail-routing core
(`src/dht/gnunet-service-wdht_neighbours.c`) and the transport address/session
lifecycle manager (`gnunet-service-transport_ats.c`).

The C code is shallowly embedded: the module-level mutable state of each
subsystem becomes an explicit state record, each C function becomes a Lean
function on that state, and external collaborators (the ATS scoring service,
the datacache, the network-size estimator, randomness) are passed in as
oracle arguments or modelled as documented.  Machine integers are modelled
as `Nat` (all the quantities involved are sizes, counters and microsecond
times that the C code never overflows in the scenarios considered).
`GNUNET_assert` failures abort the process; they are modelled either by a
`crashed` flag in the state or by an `Except` error, as noted per function.
-/

namespace GnunetAts

/-- A `struct GNUNET_HELLO_Address`: peer identity, transport plugin name,
    address bytes, and the `GNUNET_HELLO_ADDRESS_INFO_INBOUND` option bit.
    `GNUNET_HELLO_address_cmp` equality is structural equality here;
    `hasName` models whether `transport_name` is non-NULL. -/
structure Addr where
  peer : Nat
  transportName : Nat
  addrBytes : Nat
  inbound : Bool
  hasName : Bool
deriving DecidableEq, Repr

/-- A `struct AddressInfo` record of `gnunet-service-transport_ats.c`:
    the address, the optional attached session, the ATS active-record
    handle `ar` (an opaque handle, `Option Nat` here), the blocked-until
    absolute time, the current exponential back-off, the unblock-task
    handle (modelled as a `Bool`: scheduled or not) and the `expired`
    mark. -/
structure AddressInfo where
  address : Addr
  session : Option Nat
  ar : Option Nat
  blocked : Nat
  back_off : Nat
  unblock_task : Bool
  expired : Bool
deriving DecidableEq, Repr

/-- The module state of the lifecycle manager: the `p2a` map (kept as a
    list in insertion order; `GNUNET_CONTAINER_multipeermap` with MULTIPLE
    puts preserves all entries and `get_multiple` visits the entries of one
    peer), the `num_blocked` counter, a fresh-handle counter for the
    scoring oracle, a counter of freed `AddressInfo` records, and a flag
    recording that a `GNUNET_assert` aborted the process. -/
structure AtsState where
  ais : List AddressInfo
  num_blocked : Nat
  nextAr : Nat
  frees : Nat
  crashed : Bool
deriving DecidableEq, Repr

def initAts : AtsState := ⟨[], 0, 0, 0, false⟩

/-- Modelled from the spec: `GNUNET_TIME_STD_BACKOFF` ("doubling ... and a
    cap — exact policy delegated to a shared backoff utility"; the utility
    itself is not among the sources).  Doubling of the current value
    (at least one scheduler tick, 1000 us) capped at a threshold;
    times in microseconds. -/
def backoffThreshold : Nat := 15 * 60 * 1000000

def backoffUnit : Nat := 1000

/-- Modelled from the spec: one step of the standard exponential backoff. -/
def stdBackoff (r : Nat) : Nat := min backoffThreshold (2 * max backoffUnit r)

/-- Result of the `find_ai` / `find_ai_no_session` scans. -/
inductive FindRes where
  | crash
  | notFound
  | found (i : Nat) (ai : AddressInfo)
deriving DecidableEq, Repr

/-- Shift the index of a scan result by one (the scan moved past one
    list entry). -/
def FindRes.bump : FindRes → FindRes
  | .found i ai => .found (i + 1) ai
  | r => r

/-- Function `find_ai_cb` folded over the peer's entries: match on address equality
    and exact session equality; on a non-matching entry the callback
    asserts `(fc->session != ai->session) || (NULL == ai->session)`.
    Entries of other peers are not visited by `get_multiple`. -/
def findAiAux (a : Addr) (sess : Option Nat) : List AddressInfo → FindRes
  | [] => .notFound
  | ai :: rest =>
    if ai.address.peer = a.peer then
      if ai.address = a ∧ ai.session = sess then .found 0 ai
      else if sess = ai.session ∧ ai.session ≠ none then .crash
      else (findAiAux a sess rest).bump
    else (findAiAux a sess rest).bump

/-- Function `find_ai`. -/
def findAi (s : AtsState) (a : Addr) (sess : Option Nat) : FindRes :=
  findAiAux a sess s.ais

/-- Function `find_ai_no_session_cb` folded over the peer's entries: first entry
    with a matching address wins, sessions ignored, no assertion. -/
def findAiNoSessionAux (a : Addr) : List AddressInfo → FindRes
  | [] => .notFound
  | ai :: rest =>
    if ai.address.peer = a.peer ∧ ai.address = a then .found 0 ai
    else (findAiNoSessionAux a rest).bump

/-- Function `find_ai_no_session`. -/
def findAiNoSession (s : AtsState) (a : Addr) : FindRes :=
  findAiNoSessionAux a s.ais

/-- Function `GST_ats_expire_address`: cancel a pending unblock task (decrementing
    `num_blocked`); if a session is still attached, only mark the record
    expired and destroy the active record; otherwise remove the record from
    the map, destroy any active record, and free it (counted in `frees`).
    A missing record is `GNUNET_assert (0)`. -/
def GST_ats_expire_address (s : AtsState) (a : Addr) : AtsState :=
  if s.crashed then s else
  match findAiNoSession s a with
  | .crash => { s with crashed := true }
  | .notFound => { s with crashed := true }
  | .found i ai =>
    if ai.session ≠ none then
      { s with ais := s.ais.set i { ai with unblock_task := false, expired := true, ar := none },
               num_blocked := if ai.unblock_task then s.num_blocked - 1 else s.num_blocked }
    else
      { s with ais := s.ais.eraseIdx i, frees := s.frees + 1,
               num_blocked := if ai.unblock_task then s.num_blocked - 1 else s.num_blocked }

/-- Function `GST_ats_add_address` (outbound addresses only; `GNUNET_assert` that the
    address is not inbound and not already known).  The scoring oracle
    `GNUNET_ATS_address_add` is modelled as always handing out a fresh
    non-null handle. -/
def GST_ats_add_address (s : AtsState) (a : Addr) : AtsState :=
  if s.crashed then s else
  if ¬ a.hasName then s
  else if a.inbound then { s with crashed := true }
  else match findAiNoSession s a with
  | .crash => { s with crashed := true }
  | .found _ _ => { s with crashed := true }
  | .notFound =>
    { s with ais := s.ais ++ [⟨a, none, some s.nextAr, 0, 0, false, false⟩],
             nextAr := s.nextAr + 1 }

/-- Function `GST_ats_add_inbound_address`: `GNUNET_assert` that the address is
    inbound and the session non-NULL; a record already known for this
    (address, session) is a caller bug (`GNUNET_break`, return). -/
def GST_ats_add_inbound_address (s : AtsState) (a : Addr) (sess : Nat) : AtsState :=
  if s.crashed then s else
  if ¬ a.hasName then s
  else if ¬ a.inbound then { s with crashed := true }
  else match findAi s a (some sess) with
  | .crash => { s with crashed := true }
  | .found _ _ => s
  | .notFound =>
    { s with ais := s.ais ++ [⟨a, some sess, some s.nextAr, 0, 0, false, false⟩],
             nextAr := s.nextAr + 1 }

/-- Function `GST_ats_new_session`: attach a session to the sessionless record for
    this address; if none exists, `GNUNET_assert` that the (address,
    session) pair is already known (benign duplicate notification) and
    ignore. -/
def GST_ats_new_session (s : AtsState) (a : Addr) (sess : Nat) : AtsState :=
  if s.crashed then s else
  match findAi s a none with
  | .crash => { s with crashed := true }
  | .notFound =>
    match findAi s a (some sess) with
    | .found _ _ => s
    | _ => { s with crashed := true }
  | .found i ai =>
    { s with ais := s.ais.set i { ai with session := some sess } }

/-- Modelled from the spec: `GNUNET_ATS_address_del_session (handle,
    session) -> bool (now-empty)` of the scoring collaborator.  An inbound
    address exists for the scoring subsystem only through its session, so
    the record reports empty exactly when the address is inbound. -/
def atsOracleDelSessionEmpty (a : Addr) : Bool := a.inbound

/-- Function `GST_ats_del_session`: detach the session; if there was no active
    record and the address was inbound or already expired, finish via
    `GST_ats_expire_address`; if there was an active record and the scoring
    record reports now-empty, drop the handle and finish likewise. -/
def GST_ats_del_session (s : AtsState) (a : Addr) (sess : Nat) : AtsState :=
  if s.crashed then s else
  match findAi s a (some sess) with
  | .crash => { s with crashed := true }
  | .notFound => s
  | .found i ai =>
    if ai.ar = none then
      if ai.expired ∨ a.inbound then
        GST_ats_expire_address { s with ais := s.ais.set i { ai with session := none } } a
      else
        { s with ais := s.ais.set i { ai with session := none } }
    else
      if atsOracleDelSessionEmpty a then
        GST_ats_expire_address
          { s with ais := s.ais.set i { ai with session := none, ar := none } } a
      else
        { s with ais := s.ais.set i { ai with session := none } }

/-- Function `GST_ats_block_address`: a missing record is `GNUNET_assert (0)`; an
    already-blocked record (`NULL == ai->ar`) is `GNUNET_break`, return.
    Otherwise grow the backoff, drop the active record, and arm the
    unblock task for the new backoff. -/
def GST_ats_block_address (s : AtsState) (a : Addr) (sess : Option Nat) (now : Nat) :
    AtsState :=
  if s.crashed then s else
  match findAi s a sess with
  | .crash => { s with crashed := true }
  | .notFound => { s with crashed := true }
  | .found i ai =>
    if ai.ar = none then s
    else
      { s with
        ais := s.ais.set i
          { ai with back_off := stdBackoff ai.back_off, ar := none,
                    blocked := now + stdBackoff ai.back_off, unblock_task := true },
        num_blocked := s.num_blocked + 1 }

/-- Function `GST_ats_block_reset`: zero the backoff of the record (a missing record
    or a still-pending unblock task is only a `GNUNET_break`). -/
def GST_ats_block_reset (s : AtsState) (a : Addr) (sess : Option Nat) : AtsState :=
  if s.crashed then s else
  match findAi s a sess with
  | .crash => { s with crashed := true }
  | .notFound => s
  | .found i ai =>
    { s with ais := s.ais.set i { ai with back_off := 0 } }

/-- Function `unblock_address` (the unblock timer firing for record `i`): clear the
    task handle, re-register the address with scoring (fresh handle) and
    decrement `num_blocked`.  The event can only occur while the task is
    scheduled. -/
def unblock_address (s : AtsState) (i : Nat) : AtsState :=
  if s.crashed then s else
  match s.ais.get? i with
  | none => s
  | some ai =>
    if ai.unblock_task then
      { s with ais := s.ais.set i { ai with unblock_task := false, ar := some s.nextAr },
               nextAr := s.nextAr + 1, num_blocked := s.num_blocked - 1 }
    else s

/-- The observable API events of the lifecycle manager. -/
inductive AtsEvent where
  | addAddress (a : Addr)
  | addInbound (a : Addr) (sess : Nat)
  | newSession (a : Addr) (sess : Nat)
  | delSession (a : Addr) (sess : Nat)
  | blockAddress (a : Addr) (sess : Option Nat) (now : Nat)
  | blockReset (a : Addr) (sess : Option Nat)
  | expireAddress (a : Addr)
  | unblockFire (i : Nat)
deriving DecidableEq, Repr

def atsStep (s : AtsState) : AtsEvent → AtsState
  | .addAddress a => GST_ats_add_address s a
  | .addInbound a sess => GST_ats_add_inbound_address s a sess
  | .newSession a sess => GST_ats_new_session s a sess
  | .delSession a sess => GST_ats_del_session s a sess
  | .blockAddress a sess now => GST_ats_block_address s a sess now
  | .blockReset a sess => GST_ats_block_reset s a sess
  | .expireAddress a => GST_ats_expire_address s a
  | .unblockFire i => unblock_address s i

/-- Run a sequence of API events from the freshly initialized manager. -/
def atsRun (es : List AtsEvent) : AtsState := es.foldl atsStep initAts

end GnunetAts

namespace GnunetWdht

def NUMBER_LAYERED_ID : Nat := 8

def TRAIL_TIMEOUT : Nat := 42 * 60 * 1000000

def GNUNET_SERVER_MAX_MESSAGE_SIZE : Nat := 65536

/-- A `struct Trail` of `gnunet-service-wdht_neighbours.c`.  Pointers to
    other trails (the MDLL link fields) and to friends are modelled as
    optional identifiers into the corresponding stores; `ft` holds the
    layer index of the owning finger table (the C code stores a pointer to
    the global `fingers[layer]` entry), `none` when unset (zeroed
    allocation leaves it NULL). -/
structure Trail where
  pred_id : Nat
  succ_id : Nat
  expiration_time : Nat
  prev_succ : Option Nat
  next_succ : Option Nat
  prev_pred : Option Nat
  next_pred : Option Nat
  pred : Option Nat
  succ : Option Nat
  ft : Option Nat
  finger_off : Nat
deriving DecidableEq, Repr

/-- A `struct FriendInfo`: the head/tail fields of the two MDLL trail
    lists (the friend identity is the key under which it is stored). -/
structure FriendInfo where
  pred_head : Option Nat
  pred_tail : Option Nat
  succ_head : Option Nat
  succ_tail : Option Nat
deriving DecidableEq, Repr

/-- A `struct Finger` (the back-pointer `ft` is recoverable from the
    owning table and is omitted; no modelled code path reads it). -/
structure Finger where
  trail : Nat
  destination : Nat
  valid : Bool
deriving DecidableEq, Repr

/-- A `struct FingerTable`: `finger_array_size` is the length of the
    `fingers` list. -/
structure FingerTable where
  fingers : List (Option Finger)
  number_valid_fingers : Nat
  walk_offset : Nat
  is_sorted : Bool
deriving DecidableEq, Repr

/-- Control messages emitted through `GNUNET_MQ_send`. -/
inductive Msg where
  | trailDestroy (trail_id : Nat)
  | randomWalk (hops_taken layer trail_id : Nat)
  | randomWalkResponse (trail_id location : Nat)
  | trailRoute (record_path : Bool) (path_length : Nat) (trail_id : Nat)
      (path : List Nat) (payloadType payloadSize : Nat) (payloadBytes : List Nat)
deriving DecidableEq, Repr

/-- Result of a core message handler (`GNUNET_OK` / `GNUNET_YES` versus
    `GNUNET_SYSERR`). -/
inductive CRes where
  | ok
  | syserr
deriving DecidableEq, Repr

/-- The module state of the neighbours subsystem: the `struct Trail`
    allocations (an allocation store keyed by abstract pointers), the
    `friends_peermap` (keyed by peer identity), the `trail_map` (hash
    identifier to trail pointer), the `trail_heap` (trail pointer and
    expiration key), the `fingers` array of `NUMBER_LAYERED_ID` tables,
    the static `walk_layer` of `do_random_walk`, the two task handles,
    the messages sent so far and the terminal payload dispatches. -/
structure DhtState where
  trails : List (Nat × Trail)
  nextTrailPtr : Nat
  friends : List (Nat × FriendInfo)
  trail_map : List (Nat × Nat)
  trail_heap : List (Nat × Nat)
  fingers : List FingerTable
  walk_layer : Nat
  trail_timeout_task : Bool
  random_walk_task : Bool
  sent : List (Nat × Msg)
  dispatched : List Nat
deriving DecidableEq, Repr

def lookupTrail (s : DhtState) (p : Nat) : Option Trail :=
  (s.trails.find? (fun e => e.1 == p)).map (·.2)

def updTrail (s : DhtState) (p : Nat) (g : Trail → Trail) : DhtState :=
  { s with trails := s.trails.map (fun e => if e.1 == p then (e.1, g e.2) else e) }

def removeTrail (s : DhtState) (p : Nat) : DhtState :=
  { s with trails := s.trails.filter (fun e => e.1 != p) }

def lookupFriend (s : DhtState) (p : Nat) : Option FriendInfo :=
  (s.friends.find? (fun e => e.1 == p)).map (·.2)

def updFriend (s : DhtState) (p : Nat) (g : FriendInfo → FriendInfo) : DhtState :=
  { s with friends := s.friends.map (fun e => if e.1 == p then (e.1, g e.2) else e) }

def friendExists (s : DhtState) (p : Nat) : Bool :=
  s.friends.any (fun e => e.1 == p)

/-- Lookup in the `trail_map` (`GNUNET_CONTAINER_multihashmap_get`). -/
def mapGet (s : DhtState) (h : Nat) : Option Nat :=
  (s.trail_map.find? (fun e => e.1 == h)).map (·.2)

/-- Insertion with `GNUNET_CONTAINER_MULTIHASHMAPOPTION_UNIQUE_ONLY`:
    `none` when the key is already present (the put fails). -/
def mapPut (s : DhtState) (h tid : Nat) : Option DhtState :=
  if s.trail_map.any (fun e => e.1 == h) then none
  else some { s with trail_map := s.trail_map ++ [(h, tid)] }

/-- Minimum-priority peek of the expiration heap (leftmost entry of
    minimal key). -/
def heapPeekAux : List (Nat × Nat) → Option (Nat × Nat)
  | [] => none
  | e :: rest =>
    match heapPeekAux rest with
    | none => some e
    | some m => if e.2 ≤ m.2 then some e else some m

def heapInsert (s : DhtState) (tid key : Nat) : DhtState :=
  { s with trail_heap := s.trail_heap ++ [(tid, key)] }

/-- Removal of a trail's heap node (`GNUNET_CONTAINER_heap_remove_node`
    through the trail's stored node handle). -/
def heapRemove (s : DhtState) (tid : Nat) : DhtState :=
  { s with trail_heap := s.trail_heap.filter (fun e => e.1 != tid) }

def sendMsg (s : DhtState) (dst : Nat) (m : Msg) : DhtState :=
  { s with sent := s.sent ++ [(dst, m)] }

def getFingerTable (s : DhtState) (layer : Nat) : Option FingerTable :=
  s.fingers.get? layer

def setFingerTable (s : DhtState) (layer : Nat) (ft : FingerTable) : DhtState :=
  { s with fingers := s.fingers.set layer ft }

/-- Modelled from the spec: the friend's trail lists are doubly-linked
    lists threaded through the trail records (the `GNUNET_CONTAINER_MDLL`
    macros are not among the sources).  Removal unlinks the element from
    the link-field family and updates the given head/tail fields.  This is
    the call `MDLL_remove (pred, friend->pred_head, friend->pred_tail,
    trail)` of `delete_trail`: the `pred` link family together with the
    `pred` head/tail fields. -/
def mdllRemovePredSide (s : DhtState) (f : Nat) (t : Trail) : DhtState :=
  let s1 :=
    match t.prev_pred with
    | none => updFriend s f (fun fr => { fr with pred_head := t.next_pred })
    | some p => updTrail s p (fun tp => { tp with next_pred := t.next_pred })
  match t.next_pred with
  | none => updFriend s1 f (fun fr => { fr with pred_tail := t.prev_pred })
  | some n => updTrail s1 n (fun tn => { tn with prev_pred := t.prev_pred })

/-- Modelled from the spec (see `mdllRemovePredSide`).  This is the call
    `MDLL_remove (succ, friend->pred_head, friend->pred_tail, trail)` of
    `delete_trail`, exactly as written in the source: the `succ` link
    family, but the friend's `pred_head`/`pred_tail` fields. -/
def mdllRemoveSuccSide (s : DhtState) (f : Nat) (t : Trail) : DhtState :=
  let s1 :=
    match t.prev_succ with
    | none => updFriend s f (fun fr => { fr with pred_head := t.next_succ })
    | some p => updTrail s p (fun tp => { tp with next_succ := t.next_succ })
  match t.next_succ with
  | none => updFriend s1 f (fun fr => { fr with pred_tail := t.prev_succ })
  | some n => updTrail s1 n (fun tn => { tn with prev_succ := t.prev_succ })

/-- Modelled from the spec (see `mdllRemovePredSide`): head insertion
    `MDLL_insert (pred, pred->pred_head, pred->pred_tail, t)`. -/
def mdllInsertPredSide (s : DhtState) (f tid : Nat) : DhtState :=
  match lookupFriend s f with
  | none => s
  | some fr =>
    let s1 := updTrail s tid (fun t => { t with next_pred := fr.pred_head, prev_pred := none })
    let s2 :=
      match fr.pred_head with
      | none => updFriend s1 f (fun x => { x with pred_tail := some tid })
      | some h => updTrail s1 h (fun th => { th with prev_pred := some tid })
    updFriend s2 f (fun x => { x with pred_head := some tid })

/-- Modelled from the spec (see `mdllRemovePredSide`): head insertion
    `MDLL_insert (succ, friend->succ_head, friend->succ_tail, trail)`. -/
def mdllInsertSuccSide (s : DhtState) (f tid : Nat) : DhtState :=
  match lookupFriend s f with
  | none => s
  | some fr =>
    let s1 := updTrail s tid (fun t => { t with next_succ := fr.succ_head, prev_succ := none })
    let s2 :=
      match fr.succ_head with
      | none => updFriend s1 f (fun x => { x with succ_tail := some tid })
      | some h => updTrail s1 h (fun th => { th with prev_succ := some tid })
    updFriend s2 f (fun x => { x with succ_head := some tid })

/-- Function `delete_trail`: notify and unlink on the predecessor side,
    notify and unlink on the successor side (the source sends the
    predecessor-side identifier there as well, and unlinks through the
    `succ` link fields while updating the friend's `pred_head`/`pred_tail`
    — both exactly as written), remove the heap node, clear the finger
    slot reached through `trail->ft` (an unguarded dereference: a trail
    without a finger table makes it a NULL dereference, modelled as an
    error), and free the trail.  The trail is never removed from
    `trail_map` — the source contains no such call. -/
def delete_trail (s : DhtState) (tid : Nat) (inform_pred inform_succ : Bool) :
    Except String DhtState := do
  match lookupTrail s tid with
  | none => throw "invalid trail pointer"
  | some trail => do
    let s ←
      match trail.pred with
      | none => pure s
      | some f =>
        let s := if inform_pred then sendMsg s f (.trailDestroy trail.pred_id) else s
        pure (mdllRemovePredSide s f trail)
    let s ←
      match trail.succ with
      | none => pure s
      | some f =>
        let s := if inform_succ then sendMsg s f (.trailDestroy trail.pred_id) else s
        pure (mdllRemoveSuccSide s f trail)
    let s := heapRemove s tid
    match trail.ft with
    | none => throw "null finger table dereference"
    | some layer =>
      match getFingerTable s layer with
      | none => throw "finger table index out of range"
      | some ft =>
        match ft.fingers.get? trail.finger_off with
        | none => throw "finger offset out of range"
        | some slot =>
          let s :=
            match slot with
            | none => s
            | some _ =>
              setFingerTable s layer
                { ft with fingers := ft.fingers.set trail.finger_off none,
                          number_valid_fingers := ft.number_valid_fingers - 1 }
          pure (removeTrail s tid)

/-- Loop body of `trail_timeout_callback`: while the heap minimum is not
    in the future, delete it (informing both sides) and re-peek; on exit
    report the torn-down trail pointers in order and the remaining time to
    the new minimum (`none` when the heap emptied).  The fuel is an upper
    bound on the iteration count; each iteration removes the peeked node. -/
def trail_timeout_loop (now : Nat) :
    Nat → DhtState → Except String (DhtState × List Nat × Option Nat)
  | 0, _ => throw "loop fuel exhausted"
  | fuel + 1, s =>
    match heapPeekAux s.trail_heap with
    | none => pure (s, [], none)
    | some (tid, key) =>
      if now < key then pure (s, [], some (key - now))
      else do
        let s ← delete_trail s tid true true
        let (s2, torn, res) ← trail_timeout_loop now fuel s
        pure (s2, tid :: torn, res)

/-- Function `trail_timeout_callback`: clear the task handle, drain the
    due heap minima, and re-arm the task exactly when a trail remains. -/
def trail_timeout_callback (s : DhtState) (now : Nat) :
    Except String (DhtState × List Nat × Option Nat) := do
  let s := { s with trail_timeout_task := false }
  let (s2, torn, res) ← trail_timeout_loop now (s.trail_heap.length + 1) s
  pure ({ s2 with trail_timeout_task := res.isSome }, torn, res)

end GnunetWdht

namespace GnunetWdht

/-- Function `get_desired_finger_array_size` (a stub in the source). -/
def get_desired_finger_array_size : Nat := 64

/-- Function `pick_random_friend`: NULL when there are no friends,
    otherwise a uniformly random friend; the random choice is supplied by
    the oracle argument `r`. -/
def pick_random_friend (s : DhtState) (r : Nat) : Option Nat :=
  match s.friends with
  | [] => none
  | _ => (s.friends.get? (r % s.friends.length)).map (·.1)

/-- Function `do_random_walk` (one periodic tick): clear the task handle,
    pick a random friend — the source stores the possibly-NULL result and
    later dereferences it unchecked (`friend->succ_head` in the MDLL
    insert, modelled as an error) — allocate a trail with a fresh random
    successor identifier (`freshSuccId` oracle), index and list it, arm
    expiration, send a `RANDOM_WALK` (the source leaves the `layer` field
    at its zeroed value), recycle the current layer's finger slot, and
    reschedule.  A map collision frees the trail and returns without
    rescheduling. -/
def do_random_walk (s : DhtState) (now freshSuccId pickR : Nat) :
    Except String DhtState := do
  let s := { s with random_walk_task := false }
  let friendO := pick_random_friend s pickR
  let tid := s.nextTrailPtr
  let t : Trail :=
    { pred_id := 0, succ_id := freshSuccId, expiration_time := 0,
      prev_succ := none, next_succ := none, prev_pred := none, next_pred := none,
      pred := none, succ := friendO, ft := none, finger_off := 0 }
  let s := { s with trails := s.trails ++ [(tid, t)], nextTrailPtr := tid + 1 }
  match mapPut s freshSuccId tid with
  | none => return removeTrail s tid
  | some s =>
    match friendO with
    | none => throw "null friend dereference"
    | some f => do
      let s := mdllInsertSuccSide s f tid
      let exp := now + TRAIL_TIMEOUT
      let s := updTrail s tid (fun tr => { tr with expiration_time := exp })
      let s := heapInsert s tid exp
      let s := { s with trail_timeout_task := true }
      let s := sendMsg s f (.randomWalk 0 0 freshSuccId)
      match getFingerTable s s.walk_layer with
      | none => throw "finger table index out of range"
      | some ft => do
        let s ←
          if ft.fingers.isEmpty then pure s
          else
            match ft.fingers.get? ft.walk_offset with
            | none => throw "finger offset out of range"
            | some none => pure s
            | some (some finger) => delete_trail s finger.trail false true
        match getFingerTable s s.walk_layer with
        | none => throw "finger table index out of range"
        | some ft0 => do
          let ft1 :=
            if ft0.fingers.length < get_desired_finger_array_size then
              { ft0 with fingers := ft0.fingers ++
                  List.replicate (get_desired_finger_array_size - ft0.fingers.length) none }
            else ft0
          let s := setFingerTable s s.walk_layer ft1
          match ft1.fingers.get? ft1.walk_offset with
          | none => throw "finger offset out of range"
          | some (some _) => throw "assertion failed: finger slot not empty"
          | some none => do
            let s := updTrail s tid
              (fun tr => { tr with ft := some s.walk_layer, finger_off := ft1.walk_offset })
            let finger : Finger := { trail := tid, destination := 0, valid := false }
            let ft2 := { ft1 with
              fingers := ft1.fingers.set ft1.walk_offset (some finger),
              is_sorted := false,
              number_valid_fingers := ft1.number_valid_fingers + 1,
              walk_offset := (ft1.walk_offset + 1) % ft1.fingers.length }
            let s := setFingerTable s s.walk_layer ft2
            pure { s with walk_layer := (s.walk_layer + 1) % NUMBER_LAYERED_ID,
                          random_walk_task := true }

/-- The scan `for (i=0; (NULL == (f = ft->fingers[i])) || (off > 0); i++)
    if (NULL != f) off--;` of `handle_dht_p2p_random_walk`: skip `off`
    non-NULL fingers and return the next non-NULL one; running past the
    end of the array is an out-of-bounds read. -/
def scanFinger : List (Option Finger) → Nat → Except String Finger
  | [], _ => throw "finger scan out of bounds"
  | none :: rest, off => scanFinger rest off
  | some f :: rest, off => if off = 0 then pure f else scanFinger rest (off - 1)

/-- Function `handle_dht_p2p_random_walk`: reject layers strictly greater
    than `NUMBER_LAYERED_ID` (the source's bound check is `layer >
    NUMBER_LAYERED_ID`, exactly as written); create a trail with the
    sender as predecessor indexed under the carried identifier; then either
    answer (hop count above the network-size estimate `nse`) with a random
    location — the datacache key for layer 0, a random valid finger of the
    layer below otherwise, falling back to a fresh random location — or
    extend the walk by a random friend.  Oracles: `nse`, `freshSuccId`,
    `randLoc`, `randOff`, `dcKey`, `pickR`. -/
def handle_dht_p2p_random_walk (s : DhtState) (peer : Nat)
    (hops_taken layer trail_id : Nat)
    (now nse freshSuccId randLoc randOff : Nat) (dcKey : Option Nat) (pickR : Nat) :
    Except String (CRes × DhtState) := do
  if layer > NUMBER_LAYERED_ID then
    return (.syserr, s)
  let predF : Option Nat := if friendExists s peer then some peer else none
  let tid := s.nextTrailPtr
  let t : Trail :=
    { pred_id := trail_id, succ_id := 0, expiration_time := 0,
      prev_succ := none, next_succ := none, prev_pred := none, next_pred := none,
      pred := predF, succ := none, ft := none, finger_off := 0 }
  let s := { s with trails := s.trails ++ [(tid, t)], nextTrailPtr := tid + 1 }
  match mapPut s trail_id tid with
  | none => return (.syserr, removeTrail s tid)
  | some s =>
    match predF with
    | none => throw "null predecessor friend dereference"
    | some pf => do
      let s := mdllInsertPredSide s pf tid
      let exp := now + TRAIL_TIMEOUT
      let s := updTrail s tid (fun tr => { tr with expiration_time := exp })
      let s := heapInsert s tid exp
      let s := { s with trail_timeout_task := true }
      if hops_taken > nse then do
        let loc ←
          if layer = 0 then
            pure (dcKey.getD 0)
          else
            match getFingerTable s (layer - 1) with
            | none => throw "finger table index out of range"
            | some ft =>
              if ft.number_valid_fingers = 0 then pure randLoc
              else do
                let f ← scanFinger ft.fingers (randOff % ft.number_valid_fingers)
                pure f.destination
        pure (.ok, sendMsg s pf (.randomWalkResponse trail_id loc))
      else do
        let succF := pick_random_friend s pickR
        let s := updTrail s tid (fun tr => { tr with succ_id := freshSuccId, succ := succF })
        match mapPut s freshSuccId tid with
        | none =>
          let s :=
            match lookupTrail s tid with
            | some tr => mdllRemovePredSide s pf tr
            | none => s
          pure (.ok, removeTrail s tid)
        | some s =>
          match succF with
          | none => throw "null successor friend dereference"
          | some sf =>
            let s := mdllInsertSuccSide s sf tid
            pure (.ok, sendMsg s sf (.randomWalk (hops_taken + 1) layer freshSuccId))

/-- Function `handle_dht_p2p_random_walk_response`: an unknown trail
    identifier is silently ignored (expected race); with a predecessor the
    response is relayed backward unchanged; at the origin the owning
    finger table and slot are resolved (tearing the trail down defensively
    if either is missing) — and then the handler returns: the body that
    was meant to store the returned location into the finger and mark it
    valid is an unimplemented FIXME in the source, so the finger is left
    untouched. -/
def handle_dht_p2p_random_walk_response (s : DhtState) (_peer : Nat)
    (trail_id location : Nat) : Except String (CRes × DhtState) := do
  match mapGet s trail_id with
  | none => pure (.ok, s)
  | some tid =>
    match lookupTrail s tid with
    | none => throw "dangling trail pointer"
    | some trail =>
      match trail.pred with
      | some pf =>
        pure (.ok, sendMsg s pf (.randomWalkResponse trail.pred_id location))
      | none =>
        match trail.ft with
        | none => do
          let s ← delete_trail s tid false true
          pure (.ok, s)
        | some layer =>
          match getFingerTable s layer with
          | none => throw "finger table index out of range"
          | some ft =>
            match ft.fingers.get? trail.finger_off with
            | none => throw "finger offset out of range"
            | some none => do
              let s ← delete_trail s tid false true
              pure (.ok, s)
            | some (some _finger) =>
              pure (.ok, s)

/-- Function `handle_dht_p2p_trail_destroy`: the source looks the trail up
    and immediately evaluates `trail->succ` / `trail->pred` to compute the
    inform flags, without checking the lookup result — an unknown trail
    identifier is a NULL dereference, modelled as an error. -/
def handle_dht_p2p_trail_destroy (s : DhtState) (peer : Nat) (trail_id : Nat) :
    Except String (CRes × DhtState) := do
  match mapGet s trail_id with
  | none => throw "null trail dereference"
  | some tid =>
    match lookupTrail s tid with
    | none => throw "dangling trail pointer"
    | some trail => do
      let s ← delete_trail s tid
        (decide (trail.succ = some peer)) (decide (trail.pred = some peer))
      pure (.ok, s)

end GnunetWdht

namespace GnunetWdht

/-- Message type tags (the numeric values are opaque; the header defining
    the WDHT range is not among the sources — distinct constants model
    them). -/
def GNUNET_MESSAGE_TYPE_WDHT_SUCCESSOR_FIND : Nat := 910

def GNUNET_MESSAGE_TYPE_WDHT_GET : Nat := 911

def GNUNET_MESSAGE_TYPE_WDHT_GET_RESULT : Nat := 912

def GNUNET_MESSAGE_TYPE_WDHT_PUT : Nat := 913

/-- On-wire sizes, in bytes: `struct GNUNET_MessageHeader` (u16 size, u16
    type), a 512-bit `struct GNUNET_HashCode`, a 256-bit `struct
    GNUNET_PeerIdentity`, and `struct TrailRouteMessage` (header + u16
    record_path + u16 path_length + hash trail_id). -/
def sizeof_MessageHeader : Nat := 4

def sizeof_HashCode : Nat := 64

def sizeof_PeerIdentity : Nat := 32

def sizeof_TrailRouteMessage : Nat :=
  sizeof_MessageHeader + 2 + 2 + sizeof_HashCode

/-- Size of `struct FindSuccessorMessage` (header + u32 reserved + hash
    key), the fixed size in the trail payload handler table. -/
def sizeof_FindSuccessorMessage : Nat :=
  sizeof_MessageHeader + 4 + sizeof_HashCode

/-- Read a big-endian (network byte order) 16-bit field; `none` when the
    access would leave the buffer. -/
def readU16 (buf : List Nat) (off : Nat) : Option Nat :=
  match buf.get? off, buf.get? (off + 1) with
  | some hi, some lo => some (hi * 256 + lo)
  | _, _ => none

/-- Read `len` raw bytes; `none` when the access would leave the buffer. -/
def readBytes (buf : List Nat) (off len : Nat) : Option (List Nat) :=
  if off + len ≤ buf.length then some ((buf.drop off).take len) else none

/-- Big-endian value of a byte string. -/
def bytesToNat (bs : List Nat) : Nat := bs.foldl (fun acc b => acc * 256 + b) 0

/-- Read `n` consecutive 256-bit peer identities. -/
def readPath (buf : List Nat) : Nat → Nat → Option (List Nat)
  | _, 0 => some []
  | off, n + 1 =>
    match readBytes buf off sizeof_PeerIdentity, readPath buf (off + sizeof_PeerIdentity) n with
    | some p, some rest => some (bytesToNat p :: rest)
    | _, _ => none

/-- Outcome of the `TrailRoute` parse-and-validate stage: `reject` is the
    `GNUNET_break_op` early return, `oob` marks a read past the end of the
    received buffer (never actually reached — see the theorem), and
    `accept` carries the parsed fields. -/
inductive ParseResult where
  | reject
  | oob
  | accept (record_path : Nat) (path_length : Nat) (trail_id : Nat)
      (path : List Nat) (payloadType : Nat) (payloadSize : Nat)
      (payloadBytes : List Nat)
deriving DecidableEq, Repr

/-- Parse stage of `handle_dht_p2p_trail_route`, on the received bytes
    (the framework already checked that the header's declared size equals
    the delivered length, so the declared size is `buf.length`): reject
    messages shorter than the fixed header; read the declared
    `path_length`; reject if the header, the path entries and a payload
    header do not fit; read the embedded payload's declared size (an
    in-bounds read by the previous check); reject unless the sizes add up
    exactly; then extract the fields. -/
def parseTrailRoute (buf : List Nat) : ParseResult :=
  if buf.length < sizeof_TrailRouteMessage then .reject
  else
    match readU16 buf 6 with
    | none => .oob
    | some path_length =>
      if buf.length < sizeof_TrailRouteMessage + path_length * sizeof_PeerIdentity +
          sizeof_MessageHeader then .reject
      else
        match readU16 buf (sizeof_TrailRouteMessage + path_length * sizeof_PeerIdentity) with
        | none => .oob
        | some payloadSize =>
          if buf.length ≠ payloadSize + sizeof_TrailRouteMessage +
              path_length * sizeof_PeerIdentity then .reject
          else
            match readU16 buf 4, readBytes buf 8 sizeof_HashCode,
                readPath buf sizeof_TrailRouteMessage path_length,
                readU16 buf (sizeof_TrailRouteMessage + path_length * sizeof_PeerIdentity + 2),
                readBytes buf (sizeof_TrailRouteMessage + path_length * sizeof_PeerIdentity)
                  payloadSize with
            | some rp, some tidBytes, some path, some ptype, some pbytes =>
              .accept rp path_length (bytesToNat tidBytes) path ptype payloadSize pbytes
            | _, _, _, _, _ => .oob

end GnunetWdht

namespace GnunetWdht

/-- Function `forward_message_on_trail`: build the (possibly extended)
    recorded path and re-send the payload along the trail.  When recording
    would overflow the maximum message size the call degrades to not
    recording the path (`GNUNET_break_op`, `plen = 0`); the size budget is
    computed in C `size_t` arithmetic, which wraps modulo `2 ^ 64` when the
    payload length exceeds the budget base. -/
def forward_message_on_trail (s : DhtState) (next_target : Nat) (trail_id : Nat)
    (have_path : Bool) (predecessor : Nat) (path : List Nat) (path_length : Nat)
    (payloadType payloadSize : Nat) (payloadBytes : List Nat) : DhtState :=
  let budget : Nat :=
    ((((GNUNET_SERVER_MAX_MESSAGE_SIZE : Int) - (payloadSize : Int) -
        (sizeof_TrailRouteMessage : Int)).emod (2 ^ 64)).toNat) / sizeof_PeerIdentity
  if have_path ∧ path_length + 1 < budget then
    sendMsg s next_target
      (.trailRoute true (path_length + 1) trail_id
        (path.take path_length ++ [predecessor]) payloadType payloadSize payloadBytes)
  else
    sendMsg s next_target
      (.trailRoute false 0 trail_id [] payloadType payloadSize payloadBytes)

/-- Dispatch of a terminal trail payload against the fixed handler table
    `{successor-find (fixed size), get, get-result, put (variable size)}`:
    a matching type with an acceptable size invokes the handler (the
    handler bodies are stubs in the source; the invocation is recorded),
    a size mismatch or an unknown type is a `GNUNET_break_op` no-op. -/
def dispatchTrailPayload (s : DhtState) (_trail_id : Nat) (_path : List Nat)
    (ptype psize : Nat) : DhtState :=
  if ptype = GNUNET_MESSAGE_TYPE_WDHT_SUCCESSOR_FIND then
    if psize = sizeof_FindSuccessorMessage then
      { s with dispatched := s.dispatched ++ [ptype] }
    else s
  else if ptype = GNUNET_MESSAGE_TYPE_WDHT_GET ∨
      ptype = GNUNET_MESSAGE_TYPE_WDHT_GET_RESULT ∨
      ptype = GNUNET_MESSAGE_TYPE_WDHT_PUT then
    { s with dispatched := s.dispatched ++ [ptype] }
  else s

/-- Function `handle_dht_p2p_trail_route`: parse and validate (the three
    early rejects return `GNUNET_YES` with no state change), then look the
    trail up — the source dereferences the lookup result (`trail->pred`)
    without a NULL check, so an unknown trail identifier is a NULL
    dereference, modelled as an error.  A message from the
    predecessor-side friend is forwarded to the successor (or dispatched
    when there is none); otherwise symmetrically. -/
def handle_dht_p2p_trail_route (s : DhtState) (peer : Nat) (buf : List Nat) :
    Except String (CRes × DhtState) := do
  match parseTrailRoute buf with
  | .oob => throw "read past end of message buffer"
  | .reject => pure (.ok, s)
  | .accept record_path path_length trail_id path ptype psize pbytes =>
    match mapGet s trail_id with
    | none => throw "null trail dereference"
    | some tid =>
      match lookupTrail s tid with
      | none => throw "dangling trail pointer"
      | some trail =>
        if trail.pred = some peer then
          match trail.succ with
          | some f =>
            pure (.ok, forward_message_on_trail s f trail.succ_id (record_path ≠ 0)
              peer path path_length ptype psize pbytes)
          | none => pure (.ok, dispatchTrailPayload s trail_id path ptype psize)
        else
          match trail.pred with
          | some f =>
            pure (.ok, forward_message_on_trail s f trail.pred_id (record_path ≠ 0)
              peer path path_length ptype psize pbytes)
          | none => pure (.ok, dispatchTrailPayload s trail_id path ptype psize)

end GnunetWdht

namespace GnunetAts

/-- Record-level part of the claimed exclusivity invariant that the code
    actually maintains: the active-record handle and the unblock task are
    never both set. -/
def RecNotBoth (r : AddressInfo) : Prop :=
  ¬ (r.ar.isSome = true ∧ r.unblock_task = true)

/-- State-level form of the never-both invariant. -/
def NoBoth (s : AtsState) : Prop := ∀ r ∈ s.ais, RecNotBoth r

/-- Backoff values never exceed the cap (auxiliary invariant for the
    monotonicity property). -/
def BackoffOk (s : AtsState) : Prop := ∀ r ∈ s.ais, r.back_off ≤ backoffThreshold

/-- A default record for out-of-range `List.getD` reads in statements. -/
def defaultAddressInfo : AddressInfo :=
  ⟨⟨0, 0, 0, false, false⟩, none, none, 0, 0, false, false⟩

/-- An inbound address of peer 1 used in the concrete scenarios. -/
def exAddr : Addr := ⟨1, 10, 20, true, true⟩

/-- An outbound address of peer 2 used in the concrete scenarios. -/
def exAddrOut : Addr := ⟨2, 10, 21, false, true⟩

/-- Inbound add followed by address expiry while the session is attached. -/
def ceTrace : List AtsEvent := [.addInbound exAddr 5, .expireAddress exAddr]

/-- Expire first, session-delete second. -/
def orderATrace : List AtsEvent :=
  [.addInbound exAddr 5, .expireAddress exAddr, .delSession exAddr 5]

/-- Session-delete first, expire second. -/
def orderBTrace : List AtsEvent :=
  [.addInbound exAddr 5, .delSession exAddr 5, .expireAddress exAddr]

end GnunetAts

namespace GnunetWdht

def emptyFingerTable : FingerTable := ⟨[], 0, 0, false⟩

def emptyFingers : List FingerTable :=
  List.replicate NUMBER_LAYERED_ID emptyFingerTable

/-- The freshly initialized neighbours state (`GDS_NEIGHBOURS_init`). -/
def exDht0 : DhtState :=
  ⟨[], 0, [], [], [], emptyFingers, 0, false, false, [], []⟩

/-- One friend (peer 7), no trails yet. -/
def exDht8 : DhtState := { exDht0 with friends := [(7, ⟨none, none, none, none⟩)] }

/-- A finger-backed trail (pointer 1, successor-side identifier 42,
    expiring at 10) anchored in friend 7's successor list, indexed in the
    map and the heap, owning finger slot 0 of layer 0 — the state right
    after the walk that created it. -/
def exTrail1 : Trail := ⟨0, 42, 10, none, none, none, none, none, some 7, some 0, 0⟩

def exDht1 : DhtState :=
  { trails := [(1, exTrail1)], nextTrailPtr := 2,
    friends := [(7, ⟨none, none, some 1, some 1⟩)],
    trail_map := [(42, 1)], trail_heap := [(1, 10)],
    fingers := emptyFingers.set 0 ⟨[some ⟨1, 0, false⟩], 1, 1, false⟩,
    walk_layer := 0, trail_timeout_task := true, random_walk_task := false,
    sent := [], dispatched := [] }

/-- Three finger-backed trails with expirations 10 < 20 < 30 in the heap. -/
def exDht3 : DhtState :=
  { trails := [(1, ⟨0, 101, 10, none, none, none, none, none, none, some 0, 0⟩),
               (2, ⟨0, 102, 20, none, none, none, none, none, none, some 0, 1⟩),
               (3, ⟨0, 103, 30, none, none, none, none, none, none, some 0, 2⟩)],
    nextTrailPtr := 4, friends := [],
    trail_map := [(101, 1), (102, 2), (103, 3)],
    trail_heap := [(1, 10), (2, 20), (3, 30)],
    fingers := emptyFingers.set 0
      ⟨[some ⟨1, 0, false⟩, some ⟨2, 0, false⟩, some ⟨3, 0, false⟩], 3, 0, false⟩,
    walk_layer := 0, trail_timeout_task := true, random_walk_task := false,
    sent := [], dispatched := [] }

/-- A due trail as created by `handle_dht_p2p_random_walk` for an
    intermediate hop: predecessor-side identifier 55, no finger table
    (`ft` left at its zeroed NULL value). -/
def exDhtMid : DhtState :=
  { trails := [(4, ⟨55, 0, 10, none, none, none, none, none, none, none, 0⟩)],
    nextTrailPtr := 5, friends := [], trail_map := [(55, 4)], trail_heap := [(4, 10)],
    fingers := emptyFingers, walk_layer := 0, trail_timeout_task := true,
    random_walk_task := false, sent := [], dispatched := [] }

/-- A well-formed 76-byte `TrailRoute` message: declared size 76, empty
    path, all-zero trail identifier, embedded 4-byte payload of type 911
    (GET). -/
def exBuf : List Nat :=
  [0, 76, 0, 0, 0, 0, 0, 0] ++ List.replicate 64 0 ++ [0, 4, 3, 143]

end GnunetWdht

namespace GnunetWdht

/-- C1: the claim that `delete_trail` removes the trail from the id map
    and from the friend's lists fails on the code: after deleting the
    finger-backed trail of `exDht1`, the map still resolves identifier 42
    to the freed trail pointer 1 (no `multihashmap_remove` call exists in
    `delete_trail`), and friend 7's successor-list head still points at
    the freed trail (the successor-side unlink updates the predecessor
    head/tail fields).  The trail allocation itself is gone. -/
theorem delete_trail_leaves_trail_in_map_and_list :
    (delete_trail exDht1 1 false true).toOption.map
        (fun s => (mapGet s 42, lookupTrail s 1,
          (lookupFriend s 7).map FriendInfo.succ_head))
      = some (some 1, none, some (some 1)) := by decide

/-- C3: a `RANDOM_WALK_RESPONSE` for the origin trail of `exDht1` (no
    predecessor, finger table and slot both present) leaves the state
    bit-for-bit unchanged — in particular finger slot 0 of layer 0 still
    has `valid = false` and `destination = 0`, not the carried location
    99: the storing of the response is an unimplemented FIXME in the
    source. -/
theorem random_walk_response_keeps_finger_invalid :
    handle_dht_p2p_random_walk_response exDht1 7 42 99 = .ok (.ok, exDht1) := by rfl

/-- C7: with finger-backed trails expiring at 10 < 20 < 30, the expiry
    task tears them down in order [1, 2, 3] and stops (empty heap); run at
    time 15 it tears down only trail 1 and re-arms for the remaining 5
    units to the new minimum; but on a heap holding a due trail created by
    `handle_dht_p2p_random_walk` (NULL finger table), `delete_trail`
    dereferences the NULL `trail->ft` and the task crashes. -/
theorem trail_expiry_order_and_crash :
    ((trail_timeout_callback exDht3 100).toOption.map (fun r => (r.2.1, r.2.2))
        = some ([1, 2, 3], none)) ∧
    ((trail_timeout_callback exDht3 15).toOption.map (fun r => (r.2.1, r.2.2))
        = some ([1], some 5)) ∧
    (trail_timeout_callback exDhtMid 100 = .error "null finger table dereference") := by
  refine ⟨by decide, by decide, by rfl⟩

/-- C9: a random-walk tick on the freshly initialized state (no friends)
    dereferences the NULL friend returned by `pick_random_friend` instead
    of being a no-op: the source inserts the new trail into
    `friend->succ_head` without checking for NULL. -/
theorem random_walk_tick_crashes_with_no_friends :
    do_random_walk exDht0 0 42 0 = .error "null friend dereference" := by rfl

/-- C10: both `handle_dht_p2p_trail_destroy` and (for a well-formed
    message) `handle_dht_p2p_trail_route` dereference the result of the
    trail-map lookup without a NULL check, so a trail identifier absent
    from the map crashes instead of being ignored. -/
theorem unknown_trail_id_crashes_handlers :
    handle_dht_p2p_trail_destroy exDht0 7 99 = .error "null trail dereference" ∧
    handle_dht_p2p_trail_route exDht0 7 exBuf = .error "null trail dereference" := by
  refine ⟨by rfl, by rfl⟩

/-- C8 counterexample: a `RANDOM_WALK` whose layer field equals
    `NUMBER_LAYERED_ID` (one past the valid range 0 ..
    `NUMBER_LAYERED_ID - 1`) is NOT rejected — the source checks `layer >
    NUMBER_LAYERED_ID` — and a trail is created under the carried
    identifier 55. -/
theorem random_walk_layer_equal_bound_accepted :
    (handle_dht_p2p_random_walk exDht8 7 5 NUMBER_LAYERED_ID 55 0 1 42 9 0 none 0).toOption.map
        (fun p => (p.1, mapGet p.2 55)) = some (.ok, some 0) := by decide

end GnunetWdht

namespace GnunetAts

/-- C2 counterexample: after `add_inbound_address` and then
    `expire_address` (session still attached) the record is still present
    but has neither an active-record handle nor an unblock task — the
    claimed "exactly one" invariant fails in the expired-pending state. -/
theorem exactly_one_handle_fails_after_expire :
    (atsRun ceTrace).ais.map (fun r => (r.ar, r.unblock_task, r.expired, r.session))
      = [(none, false, true, some 5)] := by decide

/-- C4: starting from an inbound (address, session) record,
    `expire_address` with the session attached frees nothing and keeps the
    record (marked expired); completing with `del_session` frees it
    exactly once; the reverse order also ends with exactly one free and no
    record. -/
theorem inbound_record_freed_exactly_once_in_both_orders :
    ((atsRun ceTrace).frees = 0 ∧ (atsRun ceTrace).ais.length = 1) ∧
    ((atsRun orderATrace).frees = 1 ∧ (atsRun orderATrace).ais.length = 0) ∧
    ((atsRun orderBTrace).frees = 1 ∧ (atsRun orderBTrace).ais.length = 0) := by
  refine ⟨⟨by decide, by decide⟩, ⟨by decide, by decide⟩, ⟨by decide, by decide⟩⟩

end GnunetAts

namespace GnunetAts

lemma mem_of_get? {α : Type} : ∀ {l : List α} {i : Nat} {x : α}, l.get? i = some x → x ∈ l
  | [], _, _, h => by simp at h
  | _ :: _, 0, _, h => by cases h; exact List.mem_cons_self _ _
  | _ :: xs, i + 1, x, h => List.mem_cons_of_mem _ (mem_of_get? (l := xs) h)

lemma lt_of_get? {α : Type} : ∀ {l : List α} {i : Nat} {x : α},
    l.get? i = some x → i < l.length
  | [], _, _, h => by simp at h
  | _ :: _, 0, _, _ => Nat.succ_pos _
  | _ :: xs, i + 1, x, h => Nat.succ_lt_succ (lt_of_get? (l := xs) h)

lemma setMem {α : Type} : ∀ {l : List α} {i : Nat} {b r : α}, r ∈ l.set i b → r ∈ l ∨ r = b
  | [], _, _, _, h => by simp at h
  | x :: xs, 0, b, r, h => by
    rcases List.mem_cons.mp h with h | h
    · exact Or.inr h
    · exact Or.inl (List.mem_cons_of_mem _ h)
  | x :: xs, i + 1, b, r, h => by
    rcases List.mem_cons.mp h with h | h
    · exact Or.inl (h ▸ List.mem_cons_self _ _)
    · rcases setMem h with h' | h'
      · exact Or.inl (List.mem_cons_of_mem _ h')
      · exact Or.inr h'

lemma eraseIdxMem {α : Type} : ∀ {l : List α} {i : Nat} {r : α}, r ∈ l.eraseIdx i → r ∈ l
  | [], _, _, h => by simp [List.eraseIdx] at h
  | x :: xs, 0, r, h => List.mem_cons_of_mem _ h
  | x :: xs, i + 1, r, h => by
    rcases List.mem_cons.mp h with h | h
    · exact h ▸ List.mem_cons_self _ _
    · exact List.mem_cons_of_mem _ (eraseIdxMem h)

lemma get?_set_self {α : Type} : ∀ (l : List α) (i : Nat) (b : α),
    i < l.length → (l.set i b).get? i = some b
  | [], i, b, h => absurd h (by simp)
  | x :: xs, 0, b, _ => rfl
  | x :: xs, i + 1, b, h => get?_set_self xs i b (by simpa using h)

lemma get?_set_ne {α : Type} : ∀ (l : List α) (i k : Nat) (b : α),
    i ≠ k → (l.set k b).get? i = l.get? i
  | [], _, _, _, _ => by simp
  | x :: xs, 0, 0, b, h => absurd rfl h
  | x :: xs, 0, k + 1, b, _ => rfl
  | x :: xs, i + 1, 0, b, _ => rfl
  | x :: xs, i + 1, k + 1, b, h => get?_set_ne xs i k b (fun e => h (by omega))

lemma findAiAux_get? {a : Addr} {sess : Option Nat} :
    ∀ {l : List AddressInfo} {i : Nat} {ai : AddressInfo},
      findAiAux a sess l = .found i ai → l.get? i = some ai := by
  intro l
  induction l with
  | nil => intro i ai h; simp [findAiAux] at h
  | cons x xs ih =>
    intro i ai h
    simp only [findAiAux] at h
    split at h
    · split at h
      · cases h; rfl
      · split at h
        · exact absurd h (by simp)
        · rcases hx : findAiAux a sess xs with _ | _ | ⟨j, y⟩ <;> rw [hx] at h <;>
            simp [FindRes.bump] at h
          obtain ⟨hi, hy⟩ := h
          subst hi; subst hy
          exact ih hx
    · rcases hx : findAiAux a sess xs with _ | _ | ⟨j, y⟩ <;> rw [hx] at h <;>
        simp [FindRes.bump] at h
      obtain ⟨hi, hy⟩ := h
      subst hi; subst hy
      exact ih hx

lemma findAiNoSessionAux_get? {a : Addr} :
    ∀ {l : List AddressInfo} {i : Nat} {ai : AddressInfo},
      findAiNoSessionAux a l = .found i ai → l.get? i = some ai := by
  intro l
  induction l with
  | nil => intro i ai h; simp [findAiNoSessionAux] at h
  | cons x xs ih =>
    intro i ai h
    simp only [findAiNoSessionAux] at h
    split at h
    · cases h; rfl
    · rcases hx : findAiNoSessionAux a xs with _ | _ | ⟨j, y⟩ <;> rw [hx] at h <;>
        simp [FindRes.bump] at h
      obtain ⟨hi, hy⟩ := h
      subst hi; subst hy
      exact ih hx

lemma findAi_get? {s : AtsState} {a : Addr} {sess : Option Nat} {i : Nat}
    {ai : AddressInfo} (h : findAi s a sess = .found i ai) : s.ais.get? i = some ai :=
  findAiAux_get? h

lemma findAiNoSession_get? {s : AtsState} {a : Addr} {i : Nat}
    {ai : AddressInfo} (h : findAiNoSession s a = .found i ai) : s.ais.get? i = some ai :=
  findAiNoSessionAux_get? h

lemma recNotBoth_of_ar_none {r : AddressInfo} (h : r.ar = none) : RecNotBoth r := by
  intro hc
  rw [h] at hc
  simp at hc

lemma recNotBoth_of_task_false {r : AddressInfo} (h : r.unblock_task = false) :
    RecNotBoth r := by
  intro hc
  rw [h] at hc
  simp at hc

lemma recNotBoth_same {r r' : AddressInfo} (har : r'.ar = r.ar)
    (htask : r'.unblock_task = r.unblock_task) (h : RecNotBoth r) : RecNotBoth r' := by
  intro hc
  exact h ⟨har ▸ hc.1, htask ▸ hc.2⟩

lemma noBoth_expire {s : AtsState} (a : Addr) (h : NoBoth s) :
    NoBoth (GST_ats_expire_address s a) := by
  unfold GST_ats_expire_address
  split
  · exact h
  · split
    · exact h
    · exact h
    · split
      · intro r hr
        rcases setMem hr with hm | rfl
        · exact h r hm
        · exact recNotBoth_of_ar_none rfl
      · intro r hr
        exact h r (eraseIdxMem hr)

lemma noBoth_add_address {s : AtsState} (a : Addr) (h : NoBoth s) :
    NoBoth (GST_ats_add_address s a) := by
  unfold GST_ats_add_address
  split
  · exact h
  · split
    · exact h
    · split
      · exact h
      · split
        · exact h
        · exact h
        · intro r hr
          rcases List.mem_append.mp hr with hm | hm
          · exact h r hm
          · simp at hm
            subst hm
            exact recNotBoth_of_task_false rfl

lemma noBoth_add_inbound {s : AtsState} (a : Addr) (sess : Nat) (h : NoBoth s) :
    NoBoth (GST_ats_add_inbound_address s a sess) := by
  unfold GST_ats_add_inbound_address
  split
  · exact h
  · split
    · exact h
    · split
      · exact h
      · split
        · exact h
        · exact h
        · intro r hr
          rcases List.mem_append.mp hr with hm | hm
          · exact h r hm
          · simp at hm
            subst hm
            exact recNotBoth_of_task_false rfl

lemma noBoth_new_session {s : AtsState} (a : Addr) (sess : Nat) (h : NoBoth s) :
    NoBoth (GST_ats_new_session s a sess) := by
  unfold GST_ats_new_session
  split
  · exact h
  · split
    · exact h
    · split
      · exact h
      · exact h
    · rename_i i ai heq
      intro r hr
      rcases setMem hr with hm | rfl
      · exact h r hm
      · exact recNotBoth_same rfl rfl (h ai (mem_of_get? (findAi_get? heq)))

lemma noBoth_del_session {s : AtsState} (a : Addr) (sess : Nat) (h : NoBoth s) :
    NoBoth (GST_ats_del_session s a sess) := by
  unfold GST_ats_del_session
  split
  · exact h
  · split
    · exact h
    · exact h
    · rename_i i ai heq
      have hmem : ai ∈ s.ais := mem_of_get? (findAi_get? heq)
      split
      · split
        · refine noBoth_expire a ?_
          intro r hr
          rcases setMem hr with hm | rfl
          · exact h r hm
          · exact recNotBoth_same rfl rfl (h ai hmem)
        · intro r hr
          rcases setMem hr with hm | rfl
          · exact h r hm
          · exact recNotBoth_same rfl rfl (h ai hmem)
      · split
        · refine noBoth_expire a ?_
          intro r hr
          rcases setMem hr with hm | rfl
          · exact h r hm
          · exact recNotBoth_of_ar_none rfl
        · intro r hr
          rcases setMem hr with hm | rfl
          · exact h r hm
          · exact recNotBoth_same rfl rfl (h ai hmem)

lemma noBoth_block {s : AtsState} (a : Addr) (sess : Option Nat) (now : Nat)
    (h : NoBoth s) : NoBoth (GST_ats_block_address s a sess now) := by
  unfold GST_ats_block_address
  split
  · exact h
  · split
    · exact h
    · exact h
    · split
      · exact h
      · intro r hr
        rcases setMem hr with hm | rfl
        · exact h r hm
        · exact recNotBoth_of_ar_none rfl

lemma noBoth_reset {s : AtsState} (a : Addr) (sess : Option Nat) (h : NoBoth s) :
    NoBoth (GST_ats_block_reset s a sess) := by
  unfold GST_ats_block_reset
  split
  · exact h
  · split
    · exact h
    · exact h
    · rename_i i ai heq
      intro r hr
      rcases setMem hr with hm | rfl
      · exact h r hm
      · exact recNotBoth_same rfl rfl (h ai (mem_of_get? (findAi_get? heq)))

lemma noBoth_unblock {s : AtsState} (i : Nat) (h : NoBoth s) :
    NoBoth (unblock_address s i) := by
  unfold unblock_address
  split
  · exact h
  · split
    · exact h
    · split
      · intro r hr
        rcases setMem hr with hm | rfl
        · exact h r hm
        · exact recNotBoth_of_task_false rfl
      · exact h

lemma noBoth_step {s : AtsState} (e : AtsEvent) (h : NoBoth s) : NoBoth (atsStep s e) := by
  cases e with
  | addAddress a => exact noBoth_add_address a h
  | addInbound a sess => exact noBoth_add_inbound a sess h
  | newSession a sess => exact noBoth_new_session a sess h
  | delSession a sess => exact noBoth_del_session a sess h
  | blockAddress a sess now => exact noBoth_block a sess now h
  | blockReset a sess => exact noBoth_reset a sess h
  | expireAddress a => exact noBoth_expire a h
  | unblockFire i => exact noBoth_unblock i h

lemma noBoth_run (es : List AtsEvent) : NoBoth (atsRun es) := by
  unfold atsRun
  suffices hgen : ∀ s : AtsState, NoBoth s → NoBoth (es.foldl atsStep s) by
    refine hgen initAts ?_
    intro r hr
    simp [initAts] at hr
  induction es with
  | nil => intro s hs; exact hs
  | cons e es ih => intro s hs; exact ih (atsStep s e) (noBoth_step e hs)

end GnunetAts

namespace GnunetAts

/-- C2 amended: along every event trace, every live `AddressInfo` has at
    most one of {active-record handle, unblock task} set — never both.
    (The "never neither" half of the original claim fails: see the
    counterexample theorem for the expired-pending state.) -/
theorem at_most_one_of_ar_and_unblock_task (es : List AtsEvent) (r : AddressInfo)
    (hr : r ∈ (atsRun es).ais) : ¬ (r.ar.isSome = true ∧ r.unblock_task = true) :=
  noBoth_run es r hr

/-- Witness: the amended C2 theorem applied to a concrete trace/record. -/
theorem at_most_one_of_ar_and_unblock_task_witness :
    ¬ ((⟨exAddr, some 5, some 0, 0, 0, false, false⟩ : AddressInfo).ar.isSome = true ∧
      (⟨exAddr, some 5, some 0, 0, 0, false, false⟩ : AddressInfo).unblock_task = true) :=
  at_most_one_of_ar_and_unblock_task [.addInbound exAddr 5]
    ⟨exAddr, some 5, some 0, 0, 0, false, false⟩ (by decide)

lemma stdBackoff_le_threshold (r : Nat) : stdBackoff r ≤ backoffThreshold :=
  Nat.min_le_left _ _

lemma le_stdBackoff {r : Nat} (h : r ≤ backoffThreshold) : r ≤ stdBackoff r := by
  have h1 : r ≤ max backoffUnit r := le_max_right _ _
  have h2 : r ≤ 2 * max backoffUnit r := by omega
  exact le_min h h2

lemma backoffOk_expire {s : AtsState} (a : Addr) (h : BackoffOk s) :
    BackoffOk (GST_ats_expire_address s a) := by
  unfold GST_ats_expire_address
  split
  · exact h
  · split
    · exact h
    · exact h
    · rename_i i ai heq
      have hmem : ai ∈ s.ais := mem_of_get? (findAiNoSession_get? heq)
      split
      · intro r hr
        rcases setMem hr with hm | rfl
        · exact h r hm
        · exact h ai hmem
      · intro r hr
        exact h r (eraseIdxMem hr)

lemma backoffOk_add_address {s : AtsState} (a : Addr) (h : BackoffOk s) :
    BackoffOk (GST_ats_add_address s a) := by
  unfold GST_ats_add_address
  split
  · exact h
  · split
    · exact h
    · split
      · exact h
      · split
        · exact h
        · exact h
        · intro r hr
          rcases List.mem_append.mp hr with hm | hm
          · exact h r hm
          · simp at hm
            subst hm
            exact Nat.zero_le _

lemma backoffOk_add_inbound {s : AtsState} (a : Addr) (sess : Nat) (h : BackoffOk s) :
    BackoffOk (GST_ats_add_inbound_address s a sess) := by
  unfold GST_ats_add_inbound_address
  split
  · exact h
  · split
    · exact h
    · split
      · exact h
      · split
        · exact h
        · exact h
        · intro r hr
          rcases List.mem_append.mp hr with hm | hm
          · exact h r hm
          · simp at hm
            subst hm
            exact Nat.zero_le _

lemma backoffOk_new_session {s : AtsState} (a : Addr) (sess : Nat) (h : BackoffOk s) :
    BackoffOk (GST_ats_new_session s a sess) := by
  unfold GST_ats_new_session
  split
  · exact h
  · split
    · exact h
    · split
      · exact h
      · exact h
    · rename_i i ai heq
      intro r hr
      rcases setMem hr with hm | rfl
      · exact h r hm
      · exact h ai (mem_of_get? (findAi_get? heq))

lemma backoffOk_del_session {s : AtsState} (a : Addr) (sess : Nat) (h : BackoffOk s) :
    BackoffOk (GST_ats_del_session s a sess) := by
  unfold GST_ats_del_session
  split
  · exact h
  · split
    · exact h
    · exact h
    · rename_i i ai heq
      have hmem : ai ∈ s.ais := mem_of_get? (findAi_get? heq)
      split
      · split
        · refine backoffOk_expire a ?_
          intro r hr
          rcases setMem hr with hm | rfl
          · exact h r hm
          · exact h ai hmem
        · intro r hr
          rcases setMem hr with hm | rfl
          · exact h r hm
          · exact h ai hmem
      · split
        · refine backoffOk_expire a ?_
          intro r hr
          rcases setMem hr with hm | rfl
          · exact h r hm
          · exact h ai hmem
        · intro r hr
          rcases setMem hr with hm | rfl
          · exact h r hm
          · exact h ai hmem

lemma backoffOk_block {s : AtsState} (a : Addr) (sess : Option Nat) (now : Nat)
    (h : BackoffOk s) : BackoffOk (GST_ats_block_address s a sess now) := by
  unfold GST_ats_block_address
  split
  · exact h
  · split
    · exact h
    · exact h
    · split
      · exact h
      · intro r hr
        rcases setMem hr with hm | rfl
        · exact h r hm
        · exact stdBackoff_le_threshold _

lemma backoffOk_reset {s : AtsState} (a : Addr) (sess : Option Nat) (h : BackoffOk s) :
    BackoffOk (GST_ats_block_reset s a sess) := by
  unfold GST_ats_block_reset
  split
  · exact h
  · split
    · exact h
    · exact h
    · intro r hr
      rcases setMem hr with hm | rfl
      · exact h r hm
      · exact Nat.zero_le _

lemma backoffOk_unblock {s : AtsState} (i : Nat) (h : BackoffOk s) :
    BackoffOk (unblock_address s i) := by
  unfold unblock_address
  split
  · exact h
  · split
    · exact h
    · rename_i ai heq
      split
      · intro r hr
        rcases setMem hr with hm | rfl
        · exact h r hm
        · exact h ai (mem_of_get? heq)
      · exact h

lemma backoffOk_step {s : AtsState} (e : AtsEvent) (h : BackoffOk s) :
    BackoffOk (atsStep s e) := by
  cases e with
  | addAddress a => exact backoffOk_add_address a h
  | addInbound a sess => exact backoffOk_add_inbound a sess h
  | newSession a sess => exact backoffOk_new_session a sess h
  | delSession a sess => exact backoffOk_del_session a sess h
  | blockAddress a sess now => exact backoffOk_block a sess now h
  | blockReset a sess => exact backoffOk_reset a sess h
  | expireAddress a => exact backoffOk_expire a h
  | unblockFire i => exact backoffOk_unblock i h

lemma backoffOk_run (es : List AtsEvent) : BackoffOk (atsRun es) := by
  unfold atsRun
  suffices hgen : ∀ s : AtsState, BackoffOk s → BackoffOk (es.foldl atsStep s) by
    refine hgen initAts ?_
    intro r hr
    simp [initAts] at hr
  induction es with
  | nil => intro s hs; exact hs
  | cons e es ih => intro s hs; exact ih (atsStep s e) (backoffOk_step e hs)

lemma getD_eq_get?M {α : Type} : ∀ (l : List α) (i : Nat) (d : α),
    l.getD i d = (l.get? i).getD d
  | [], 0, _ => rfl
  | [], _ + 1, _ => rfl
  | _ :: _, 0, _ => rfl
  | _ :: xs, i + 1, d => getD_eq_get?M xs i d

end GnunetAts

namespace GnunetAts

/-- C6: in any reachable state, one `GST_ats_block_address` call leaves
    every record's backoff unchanged or larger (rejected calls — record
    missing, or already blocked — change nothing), so repeated calls
    without an intervening reset yield a non-decreasing backoff sequence;
    and `GST_ats_block_reset` zeroes the found record's backoff. -/
theorem block_backoff_monotone_and_reset_zero (es : List AtsEvent) (a : Addr)
    (sess : Option Nat) (now i j : Nat) (ai : AddressInfo) :
    ((GST_ats_block_address (atsRun es) a sess now).ais.getD i
        defaultAddressInfo).back_off ≥
      ((atsRun es).ais.getD i defaultAddressInfo).back_off ∧
    (findAi (atsRun es) a sess = .found j ai → (atsRun es).crashed = false →
      ((GST_ats_block_reset (atsRun es) a sess).ais.getD j
        defaultAddressInfo).back_off = 0) := by
  have hb : BackoffOk (atsRun es) := backoffOk_run es
  constructor
  · revert hb
    generalize atsRun es = s
    intro hb
    unfold GST_ats_block_address
    split
    · exact le_refl _
    · split
      · exact le_refl _
      · exact le_refl _
      · rename_i k ak heq
        split
        · exact le_refl _
        · by_cases hik : i = k
          · subst hik
            have hg : s.ais.get? i = some ak := findAi_get? heq
            have hlt : i < s.ais.length := lt_of_get? hg
            rw [getD_eq_get?M, getD_eq_get?M, get?_set_self _ _ _ hlt, hg]
            exact le_stdBackoff (hb ak (mem_of_get? hg))
          · rw [getD_eq_get?M, getD_eq_get?M, get?_set_ne _ _ _ _ hik]
  · intro hf hc
    revert hf hc
    generalize atsRun es = s
    intro hf hc
    unfold GST_ats_block_reset
    rw [hc]
    simp only [Bool.false_eq_true, if_false]
    rw [hf]
    have hg : s.ais.get? j = some ai := findAi_get? hf
    have hlt : j < s.ais.length := lt_of_get? hg
    rw [getD_eq_get?M, get?_set_self _ _ _ hlt]
    rfl

/-- Witness: the C6 theorem applied at a one-record trace, discharging
    the found-record and not-crashed hypotheses of the reset half. -/
theorem block_backoff_monotone_and_reset_zero_witness :
    ((GST_ats_block_address (atsRun [.addAddress exAddrOut]) exAddrOut none 0).ais.getD 0
        defaultAddressInfo).back_off ≥
      ((atsRun [.addAddress exAddrOut]).ais.getD 0 defaultAddressInfo).back_off ∧
    ((GST_ats_block_reset (atsRun [.addAddress exAddrOut]) exAddrOut none).ais.getD 0
        defaultAddressInfo).back_off = 0 :=
  ⟨(block_backoff_monotone_and_reset_zero [.addAddress exAddrOut] exAddrOut none 0 0 0
      ⟨exAddrOut, none, some 0, 0, 0, false, false⟩).1,
   (block_backoff_monotone_and_reset_zero [.addAddress exAddrOut] exAddrOut none 0 0 0
      ⟨exAddrOut, none, some 0, 0, 0, false, false⟩).2 (by decide) (by decide)⟩

end GnunetAts

namespace GnunetWdht

/-- C8 amended: a `RANDOM_WALK` message whose layer field is strictly
    greater than `NUMBER_LAYERED_ID` is failed with `GNUNET_SYSERR`
    before any allocation — the state is returned unchanged, so no trail
    is created.  (A layer equal to `NUMBER_LAYERED_ID`, which is already
    out of the valid range 0 .. `NUMBER_LAYERED_ID - 1`, is accepted: see
    the counterexample theorem.) -/
theorem random_walk_rejects_layer_above_bound (s : DhtState)
    (peer hops_taken layer trail_id now nse freshSuccId randLoc randOff : Nat)
    (dcKey : Option Nat) (pickR : Nat) (h : layer > NUMBER_LAYERED_ID) :
    handle_dht_p2p_random_walk s peer hops_taken layer trail_id now nse freshSuccId
      randLoc randOff dcKey pickR = .ok (.syserr, s) := by
  unfold handle_dht_p2p_random_walk
  simp [h]
  rfl

/-- Witness: the layer-rejection theorem at layer 9 on the one-friend
    state. -/
theorem random_walk_rejects_layer_above_bound_witness :
    handle_dht_p2p_random_walk exDht8 7 0 9 55 0 1 42 9 0 none 0
      = .ok (.syserr, exDht8) :=
  random_walk_rejects_layer_above_bound exDht8 7 0 9 55 0 1 42 9 0 none 0 (by decide)

end GnunetWdht

namespace GnunetWdht

lemma exists_get?_of_lt : ∀ (l : List Nat) (i : Nat), i < l.length → ∃ v, l.get? i = some v
  | [], _, h => absurd h (by simp)
  | x :: _, 0, _ => ⟨x, rfl⟩
  | _ :: xs, i + 1, h => exists_get?_of_lt xs i (by simpa using h)

lemma readU16_some (buf : List Nat) (off : Nat) (h : off + 2 ≤ buf.length) :
    ∃ v, readU16 buf off = some v := by
  obtain ⟨a, ha⟩ := exists_get?_of_lt buf off (by omega)
  obtain ⟨b, hb⟩ := exists_get?_of_lt buf (off + 1) (by omega)
  exact ⟨a * 256 + b, by unfold readU16; rw [ha, hb]⟩

lemma readBytes_some (buf : List Nat) (off len : Nat) (h : off + len ≤ buf.length) :
    ∃ v, readBytes buf off len = some v :=
  ⟨(buf.drop off).take len, by unfold readBytes; rw [if_pos h]⟩

lemma readPath_some : ∀ (n : Nat) (buf : List Nat) (off : Nat),
    off + n * sizeof_PeerIdentity ≤ buf.length → ∃ p, readPath buf off n = some p
  | 0, _, off, _ => ⟨[], rfl⟩
  | n + 1, buf, off, h => by
    have h32 : off + sizeof_PeerIdentity ≤ buf.length := by
      simp only [sizeof_PeerIdentity] at h ⊢
      omega
    obtain ⟨b, hb⟩ := readBytes_some buf off sizeof_PeerIdentity h32
    obtain ⟨rest, hrest⟩ := readPath_some n buf (off + sizeof_PeerIdentity)
      (by simp only [sizeof_PeerIdentity] at h ⊢; omega)
    exact ⟨bytesToNat b :: rest, by unfold readPath; rw [hb, hrest]⟩

/-- C5: the `TrailRoute` parse stage never reads past the end of the
    received buffer (no execution reaches the out-of-bounds marker — every
    field access is covered by a preceding size check), and a message is
    accepted only when the declared sizes are exactly consistent: header
    plus `path_length` peer identities plus the embedded payload's size
    equals the received size.  Every size-inconsistent message is thus
    rejected before its path or payload is handed on. -/
theorem trail_route_parse_never_out_of_bounds (buf : List Nat) :
    parseTrailRoute buf ≠ .oob ∧
    ∀ rp pl tid path pt ps pb,
      parseTrailRoute buf = .accept rp pl tid path pt ps pb →
      buf.length = ps + sizeof_TrailRouteMessage + pl * sizeof_PeerIdentity := by
  unfold parseTrailRoute
  split
  · exact ⟨by simp, by intro rp pl tid path pt ps pb hacc; simp at hacc⟩
  · rename_i h1
    split
    · rename_i heq
      obtain ⟨pl, hpl⟩ := readU16_some buf 6
        (by simp only [sizeof_TrailRouteMessage, sizeof_MessageHeader,
              sizeof_HashCode] at h1
            omega)
      rw [hpl] at heq
      simp at heq
    · rename_i pl heq
      split
      · exact ⟨by simp, by intro rp pl' tid path pt ps pb hacc; simp at hacc⟩
      · rename_i h2
        split
        · rename_i heq2
          obtain ⟨ps, hps⟩ := readU16_some buf
            (sizeof_TrailRouteMessage + pl * sizeof_PeerIdentity)
            (by simp only [sizeof_TrailRouteMessage, sizeof_MessageHeader, sizeof_HashCode,
                  sizeof_PeerIdentity] at h2 ⊢
                omega)
          rw [hps] at heq2
          simp at heq2
        · rename_i ps heq2
          split
          · exact ⟨by simp, by intro rp pl' tid path pt ps' pb hacc; simp at hacc⟩
          · rename_i h3
            have h3' : buf.length = ps + sizeof_TrailRouteMessage +
                pl * sizeof_PeerIdentity := by omega
            split
            · rename_i rp0 tb pth pt0 pb0 hv1 hv2 hv3 hv4 hv5
              refine ⟨by simp, ?_⟩
              intro rp pl' tid path pt ps' pb hacc
              cases hacc
              exact h3'
            · rename_i hmiss
              obtain ⟨rp0, hv1⟩ := readU16_some buf 4
                (by simp only [sizeof_TrailRouteMessage, sizeof_MessageHeader,
                      sizeof_HashCode] at h1
                    omega)
              obtain ⟨tb, hv2⟩ := readBytes_some buf 8 sizeof_HashCode
                (by simp only [sizeof_TrailRouteMessage, sizeof_MessageHeader,
                      sizeof_HashCode] at h1 ⊢
                    omega)
              obtain ⟨pth, hv3⟩ := readPath_some pl buf sizeof_TrailRouteMessage
                (by simp only [sizeof_TrailRouteMessage, sizeof_MessageHeader,
                      sizeof_HashCode, sizeof_PeerIdentity] at h2 ⊢
                    omega)
              obtain ⟨pt0, hv4⟩ := readU16_some buf
                (sizeof_TrailRouteMessage + pl * sizeof_PeerIdentity + 2)
                (by simp only [sizeof_TrailRouteMessage, sizeof_MessageHeader,
                      sizeof_HashCode, sizeof_PeerIdentity] at h2 ⊢
                    omega)
              obtain ⟨pb0, hv5⟩ := readBytes_some buf
                (sizeof_TrailRouteMessage + pl * sizeof_PeerIdentity) ps
                (by simp only [sizeof_TrailRouteMessage, sizeof_MessageHeader,
                      sizeof_HashCode, sizeof_PeerIdentity] at h3' ⊢
                    omega)
              exact (hmiss rp0 tb pth pt0 pb0 hv1 hv2 hv3 hv4 hv5).elim

/-- Witness: the parse theorem applied at the concrete well-formed
    76-byte message, discharging the acceptance hypothesis. -/
theorem trail_route_parse_never_out_of_bounds_witness :
    exBuf.length = 4 + sizeof_TrailRouteMessage + 0 * sizeof_PeerIdentity :=
  (trail_route_parse_never_out_of_bounds exBuf).2 0 0 0 []
    GNUNET_MESSAGE_TYPE_WDHT_GET 4 [0, 4, 3, 143] (by decide)

end GnunetWdht
